import Mathlib

/-!
Shallow embedding of the fu-sca repository core (tools.py and reporter.py).
Python strings are modelled as `List Char`; the caller-supplied Playwright
page is modelled as an oracle from page calls to results that either return
a string or raise; the reasoning service is an oracle over message lists.
-/

/-- Python whitespace characters recognised by `str.strip` (ASCII set). -/
def isPyWS (c : Char) : Bool :=
  c = ' ' || c = '\t' || c = '\n' || c = '\r' || c = Char.ofNat 11 || c = Char.ofNat 12

/-- Left trim, as in Python `str.lstrip()`. -/
def trimL (s : List Char) : List Char := s.dropWhile isPyWS

/-- Right trim, as in Python `str.rstrip()`. -/
def trimR (s : List Char) : List Char := (s.reverse.dropWhile isPyWS).reverse

/-- Python `str.strip()`: trim both ends. -/
def pyStrip (s : List Char) : List Char := trimR (trimL s)

/-- The function-syntax test of `_wrap_js_for_playwright` (tools.py line 33):
the stripped code starts with one of the callable markers. -/
def jsMarker (s : List Char) : Bool :=
  "(() =>".data.isPrefixOf s || "() =>".data.isPrefixOf s || "function".data.isPrefixOf s

/-- Embedding of `Tools._wrap_js_for_playwright` (tools.py lines 24-40):
strip the code; if it starts with a function-like marker return the stripped
text; if it starts with `return ` wrap the remainder in an arrow function;
otherwise return the stripped text. -/
def wrapJs (code : List Char) : List Char :=
  let stripped := pyStrip code
  if jsMarker stripped then
    stripped
  else if "return ".data.isPrefixOf stripped then
    "() => ".data ++ stripped.drop 7
  else
    stripped

theorem dropWhile_idem (p : Char → Bool) (l : List Char) :
    (l.dropWhile p).dropWhile p = l.dropWhile p := by
  induction l with
  | nil => rfl
  | cons a t ih =>
    by_cases h : p a = true
    · simp [List.dropWhile_cons, h, ih]
    · simp only [Bool.not_eq_true] at h
      simp [List.dropWhile_cons, h]

theorem dropWhile_eq_self_of_prefixed (p : Char → Bool) (l m : List Char)
    (hpre : m <+: l) (h : l.dropWhile p = l) : m.dropWhile p = m := by
  cases m with
  | nil => rfl
  | cons a t =>
    cases l with
    | nil => exact absurd (List.eq_nil_of_prefix_nil hpre) (by simp)
    | cons b u =>
      have hab : a = b := by
        obtain ⟨w, hw⟩ := hpre
        simpa using congrArg (fun x => x.head?) hw
      subst hab
      by_cases hp : p a = true
      · exfalso
        rw [List.dropWhile_cons, if_pos hp] at h
        have := congrArg List.length h
        have hle := (List.dropWhile_sublist (l := u) (p := p)).length_le
        simp at this
        omega
      · simp only [Bool.not_eq_true] at hp
        simp [List.dropWhile_cons, hp]

theorem trimL_idem (s : List Char) : trimL (trimL s) = trimL s :=
  dropWhile_idem isPyWS s

theorem trimR_idem (s : List Char) : trimR (trimR s) = trimR s := by
  unfold trimR
  rw [List.reverse_reverse, dropWhile_idem]

theorem prefix_trimR (s : List Char) : trimR s <+: s := by
  unfold trimR
  have h := List.dropWhile_suffix isPyWS (l := s.reverse)
  have := List.reverse_prefix.mpr (by simpa using h)
  simpa using this

theorem trimL_trimR_of_trimL_fixed (s : List Char) (h : trimL s = s) :
    trimL (trimR s) = trimR s :=
  dropWhile_eq_self_of_prefixed isPyWS s (trimR s) (prefix_trimR s) h

theorem pyStrip_idem (s : List Char) : pyStrip (pyStrip s) = pyStrip s := by
  unfold pyStrip
  rw [trimL_trimR_of_trimL_fixed (trimL s) (trimL_idem s), trimR_idem]

theorem trimR_pyStrip (s : List Char) : trimR (pyStrip s) = pyStrip s := by
  unfold pyStrip
  rw [trimR_idem]

theorem trimL_pyStrip (s : List Char) : trimL (pyStrip s) = pyStrip s := by
  unfold pyStrip
  exact trimL_trimR_of_trimL_fixed (trimL s) (trimL_idem s)

theorem dropWhile_cons_eq_self {p : Char → Bool} {a : Char} {l : List Char}
    (h : List.dropWhile p (a :: l) = a :: l) : p a = false := by
  by_cases hp : p a = true
  · exfalso
    rw [List.dropWhile_cons, if_pos hp] at h
    have hlen := congrArg List.length h
    have hle := (List.dropWhile_sublist (l := l) (p := p)).length_le
    simp at hlen
    omega
  · simpa using hp

theorem not_isPrefixOf_cons_of_ne {a b : Char} (l m : List Char) (h : a ≠ b) :
    (a :: l).isPrefixOf (b :: m) = false := by
  rw [Bool.eq_false_iff]
  intro hc
  rw [List.isPrefixOf_iff_prefix] at hc
  exact h (List.cons_prefix_cons.mp hc).1

theorem trimL_cons_of_not {a : Char} (l : List Char) (h : isPyWS a = false) :
    trimL (a :: l) = a :: l := by
  simp [trimL, List.dropWhile_cons, h]

theorem trimR_append_singleton {c : Char} (m : List Char) (h : isPyWS c = false) :
    trimR (m ++ [c]) = m ++ [c] := by
  unfold trimR
  have h1 : (m ++ [c]).reverse = c :: m.reverse := by simp
  rw [h1, List.dropWhile_cons, if_neg (by simp [h])]
  simp

theorem trimR_fixed_last_of {c : Char} {m : List Char}
    (h : trimR (m ++ [c]) = m ++ [c]) : isPyWS c = false := by
  unfold trimR at h
  have h1 : (m ++ [c]).reverse = c :: m.reverse := by simp
  rw [h1] at h
  have h2 := congrArg List.reverse h
  rw [List.reverse_reverse, h1] at h2
  exact dropWhile_cons_eq_self h2

theorem pyStrip_fixed {X : List Char} (h : pyStrip X = X) :
    trimL X = X ∧ trimR X = X := by
  have hsuf : trimL X <:+ X := List.dropWhile_suffix isPyWS
  have hpre : trimR (trimL X) <+: trimL X := prefix_trimR (trimL X)
  have hlen1 : (trimL X).length ≤ X.length := hsuf.sublist.length_le
  have hlen3 : (trimR (trimL X)).length ≤ (trimL X).length := hpre.sublist.length_le
  have hlen2 : X.length ≤ (trimL X).length := by
    have hx := congrArg List.length h
    unfold pyStrip at hx
    omega
  have hL : trimL X = X := hsuf.eq_of_length (by omega)
  refine ⟨hL, ?_⟩
  have hx := h
  unfold pyStrip at hx
  rw [hL] at hx
  exact hx

theorem pyStrip_return_append {X : List Char} (h1 : trimR X = X) (h2 : X ≠ []) :
    pyStrip ("return ".data ++ X) = "return ".data ++ X := by
  rcases List.eq_nil_or_concat X with hX | ⟨e, c, hX⟩
  · exact absurd hX h2
  · rw [List.concat_eq_append] at hX
    have hc : isPyWS c = false := trimR_fixed_last_of (hX ▸ h1)
    have hcons : "return ".data ++ X = 'r' :: ("eturn ".data ++ X) := rfl
    unfold pyStrip
    rw [hcons, trimL_cons_of_not _ (by decide), ← hcons, hX, ← List.append_assoc]
    exact trimR_append_singleton _ hc


theorem wrapJs_marker_case {s : List Char} (hm : jsMarker (pyStrip s) = true) :
    wrapJs s = pyStrip s := by
  simp only [wrapJs]
  rw [hm]
  simp

theorem wrapJs_plain_case {s : List Char} (hm : jsMarker (pyStrip s) = false)
    (hr : "return ".data.isPrefixOf (pyStrip s) = false) : wrapJs s = pyStrip s := by
  simp only [wrapJs]
  rw [hm, hr]
  simp

theorem wrapJs_return_case {s : List Char} (hm : jsMarker (pyStrip s) = false)
    (hr : "return ".data.isPrefixOf (pyStrip s) = true) :
    ∃ t, "return ".data ++ t = pyStrip s ∧ t ≠ [] ∧ wrapJs s = "() => ".data ++ t := by
  have hrb := hr
  rw [List.isPrefixOf_iff_prefix] at hr
  obtain ⟨t, ht⟩ := hr
  have hd : (pyStrip s).drop 7 = t := by
    have h7 : "return ".data.length = 7 := rfl
    rw [← ht, ← h7]
    exact List.drop_left _ _
  refine ⟨t, ht, ?_, ?_⟩
  · intro h0
    subst h0
    have h1 := trimR_pyStrip s
    rw [← ht] at h1
    simp only [List.append_nil] at h1
    exact absurd h1 (by decide)
  · simp only [wrapJs]
    rw [hm, hrb, hd]
    simp

theorem pyStrip_wrapJs (s : List Char) : pyStrip (wrapJs s) = wrapJs s := by
  cases hm : jsMarker (pyStrip s) with
  | true =>
    rw [wrapJs_marker_case hm, pyStrip_idem]
  | false =>
    cases hr : "return ".data.isPrefixOf (pyStrip s) with
    | false =>
      rw [wrapJs_plain_case hm hr, pyStrip_idem]
    | true =>
      obtain ⟨t, ht, htne, hw⟩ := wrapJs_return_case hm hr
      rw [hw]
      rcases List.eq_nil_or_concat t with h0 | ⟨e, c, hX⟩
      · exact absurd h0 htne
      · rw [List.concat_eq_append] at hX
        have htr := trimR_pyStrip s
        rw [← ht, hX, ← List.append_assoc] at htr
        have hc : isPyWS c = false := trimR_fixed_last_of htr
        have hcons : "() => ".data ++ t = '(' :: (") => ".data ++ t) := rfl
        unfold pyStrip
        rw [hcons, trimL_cons_of_not _ (by decide), ← hcons, hX, ← List.append_assoc]
        exact trimR_append_singleton _ hc

/-- C7: `_wrap_js_for_playwright` (normalizeScript, tools.py lines 24-40) is
idempotent: applying it to its own output yields that output again. -/
theorem wrapJs_idempotent (s : List Char) : wrapJs (wrapJs s) = wrapJs s := by
  cases hm : jsMarker (pyStrip s) with
  | true =>
    have h1 : wrapJs s = pyStrip s := wrapJs_marker_case hm
    rw [h1]
    have hm2 : jsMarker (pyStrip (pyStrip s)) = true := by rw [pyStrip_idem]; exact hm
    exact (wrapJs_marker_case hm2).trans (pyStrip_idem s)
  | false =>
    cases hr : "return ".data.isPrefixOf (pyStrip s) with
    | false =>
      have h1 : wrapJs s = pyStrip s := wrapJs_plain_case hm hr
      rw [h1]
      have hm2 : jsMarker (pyStrip (pyStrip s)) = false := by rw [pyStrip_idem]; exact hm
      have hr2 : "return ".data.isPrefixOf (pyStrip (pyStrip s)) = false := by
        rw [pyStrip_idem]; exact hr
      exact (wrapJs_plain_case hm2 hr2).trans (pyStrip_idem s)
    | true =>
      obtain ⟨t, ht, htne, hw⟩ := wrapJs_return_case hm hr
      have hps : pyStrip (wrapJs s) = wrapJs s := pyStrip_wrapJs s
      have hmk : jsMarker (pyStrip (wrapJs s)) = true := by
        rw [hps, hw]
        have hsp : "() => ".data ++ t = "() =>".data ++ (' ' :: t) := rfl
        have hpre : "() =>".data.isPrefixOf ("() => ".data ++ t) = true := by
          rw [List.isPrefixOf_iff_prefix, hsp]
          exact List.prefix_append _ _
        simp [jsMarker, hpre]
      exact (wrapJs_marker_case hmk).trans hps

/-- C6 counterexample: for the input `"  () => 1"` (leading whitespace, trimmed
text starts with a callable marker) `_wrap_js_for_playwright` returns the
*stripped* text, not the input unchanged, contradicting the claim that the
input is returned unchanged in the callable-marker case. -/
theorem wrapJs_counterexample :
    jsMarker (pyStrip "  () => 1".data) = true ∧
      wrapJs "  () => 1".data ≠ "  () => 1".data ∧
      wrapJs "  () => 1".data = "() => 1".data := by
  refine ⟨by decide, by decide, by decide⟩

/-- C6 (amended): the ordered rule set of `_wrap_js_for_playwright` operates on
the trimmed text and returns the trimmed text (not the original input) in the
callable-marker and bare-expression cases; an input that is exactly
`"return "` followed by a whitespace-trimmed nonempty expression `X` is
rewritten to the arrow function `"() => " ++ X`. -/
theorem wrapJs_rules (s X : List Char) :
    (jsMarker (pyStrip s) = true → wrapJs s = pyStrip s) ∧
    (pyStrip X = X → X ≠ [] → wrapJs ("return ".data ++ X) = "() => ".data ++ X) ∧
    (jsMarker (pyStrip s) = false → "return ".data.isPrefixOf (pyStrip s) = false →
      wrapJs s = pyStrip s) := by
  refine ⟨fun hm => wrapJs_marker_case hm, fun hX hne => ?_, fun hm hr => wrapJs_plain_case hm hr⟩
  have htr := (pyStrip_fixed hX).2
  have hps := pyStrip_return_append htr hne
  have hc : "return ".data ++ X = 'r' :: ("eturn ".data ++ X) := rfl
  have hm : jsMarker ("return ".data ++ X) = false := by
    simp only [jsMarker]
    rw [hc,
        not_isPrefixOf_cons_of_ne _ _ (by decide),
        not_isPrefixOf_cons_of_ne _ _ (by decide),
        not_isPrefixOf_cons_of_ne _ _ (by decide)]
    rfl
  have hr : "return ".data.isPrefixOf ("return ".data ++ X) = true := by
    rw [List.isPrefixOf_iff_prefix]
    exact List.prefix_append _ _
  have hd : ("return ".data ++ X).drop 7 = X := by
    have h7 : "return ".data.length = 7 := rfl
    rw [← h7]
    exact List.drop_left _ _
  simp only [wrapJs]
  rw [hps, hm, hr, hd]
  simp

/-- Witness for the amended C6 theorem at concrete inputs. -/
theorem wrapJs_rules_witness :
    wrapJs ("return ".data ++ "42".data) = "() => ".data ++ "42".data ∧
      wrapJs " 1+1 ".data = pyStrip " 1+1 ".data := by
  constructor
  · exact (wrapJs_rules [] "42".data).2.1 (by decide) (by decide)
  · exact (wrapJs_rules " 1+1 ".data []).2.2 (by decide) (by decide)

/-- One-pass, left-to-right, non-overlapping replacement with explicit fuel
(any fuel at least the subject length gives Python `str.replace` semantics). -/
def replaceAllFuel (pat rep : List Char) : Nat → List Char → List Char
  | 0, s => s
  | _ + 1, [] => []
  | f + 1, c :: rest =>
    if !pat.isEmpty && pat.isPrefixOf (c :: rest) then
      rep ++ replaceAllFuel pat rep f ((c :: rest).drop pat.length)
    else
      c :: replaceAllFuel pat rep f rest

/-- Python `str.replace(pat, rep)` on `List Char`. -/
def replaceAll (s pat rep : List Char) : List Char :=
  replaceAllFuel pat rep s.length s

theorem replaceAllFuel_no_occurrence (pat rep : List Char) :
    ∀ (f : Nat) (s : List Char), ¬ pat <:+: s → replaceAllFuel pat rep f s = s := by
  intro f
  induction f with
  | zero => intro s _; rfl
  | succ f ih =>
    intro s h
    cases s with
    | nil => rfl
    | cons c rest =>
      have hpre : pat.isPrefixOf (c :: rest) = false := by
        rw [Bool.eq_false_iff]
        intro hc
        rw [List.isPrefixOf_iff_prefix] at hc
        exact h hc.isInfix
      simp only [replaceAllFuel, hpre, Bool.and_false, Bool.false_eq_true, if_false]
      rw [ih rest (fun hi => h (List.infix_cons hi))]

theorem replaceAll_no_occurrence {pat : List Char} (rep s : List Char) (h : ¬ pat <:+: s) :
    replaceAll s pat rep = s :=
  replaceAllFuel_no_occurrence pat rep s.length s h

theorem replaceAllFuel_irrel (pat rep : List Char) :
    ∀ (f1 : Nat), ∀ (f2 : Nat) (s : List Char), s.length ≤ f1 → s.length ≤ f2 →
      replaceAllFuel pat rep f1 s = replaceAllFuel pat rep f2 s := by
  intro f1
  induction f1 with
  | zero =>
    intro f2 s h1 _
    have : s = [] := List.eq_nil_of_length_eq_zero (by omega)
    subst this
    cases f2 <;> rfl
  | succ f ih =>
    intro f2 s h1 h2
    cases s with
    | nil => cases f2 <;> rfl
    | cons c rest =>
      simp only [List.length_cons] at h1 h2
      cases f2 with
      | zero => omega
      | succ f2 =>
        by_cases hc : (!pat.isEmpty && pat.isPrefixOf (c :: rest)) = true
        · have hne : pat ≠ [] := by
            rcases Bool.and_eq_true_iff.mp hc with ⟨he, _⟩
            simpa using he
          have hpat : 1 ≤ pat.length := by
            cases pat with
            | nil => exact absurd rfl hne
            | cons p q => simp
          have hlen : ((c :: rest).drop pat.length).length ≤ f := by
            simp only [List.length_drop, List.length_cons]
            omega
          have hlen2 : ((c :: rest).drop pat.length).length ≤ f2 := by
            simp only [List.length_drop, List.length_cons]
            omega
          simp only [replaceAllFuel, hc, if_true]
          rw [ih f2 _ hlen hlen2]
        · have hc' : (!pat.isEmpty && pat.isPrefixOf (c :: rest)) = false :=
            Bool.eq_false_iff.mpr hc
          simp only [replaceAllFuel, hc', Bool.false_eq_true, if_false]
          rw [ih f2 rest (by omega) (by omega)]

theorem replaceAll_leading_pat {pat : List Char} (rep s : List Char) (hne : pat ≠ []) :
    replaceAll (pat ++ s) pat rep = rep ++ replaceAll s pat rep := by
  obtain ⟨p, q, hp⟩ : ∃ p q, pat = p :: q := by
    cases pat with
    | nil => exact absurd rfl hne
    | cons p q => exact ⟨p, q, rfl⟩
  subst hp
  have hcond : (!(p :: q).isEmpty && (p :: q).isPrefixOf (p :: (q ++ s))) = true := by
    have hpre : (p :: q).isPrefixOf ((p :: q) ++ s) = true := by
      rw [List.isPrefixOf_iff_prefix]
      exact List.prefix_append _ _
    rw [List.cons_append] at hpre
    rw [hpre]
    rfl
  have hdrop : (p :: (q ++ s)).drop (p :: q).length = s := by
    rw [← List.cons_append]
    exact List.drop_left _ _
  calc replaceAll ((p :: q) ++ s) (p :: q) rep
      = replaceAllFuel (p :: q) rep ((q ++ s).length + 1) (p :: (q ++ s)) := by
        unfold replaceAll
        rw [List.cons_append]
        rfl
    _ = rep ++ replaceAllFuel (p :: q) rep ((q ++ s).length) s := by
        simp only [replaceAllFuel]
        rw [if_pos hcond, hdrop]
    _ = rep ++ replaceAllFuel (p :: q) rep s.length s := by
        rw [replaceAllFuel_irrel (p :: q) rep ((q ++ s).length) s.length s (by simp) (le_refl _)]
    _ = rep ++ replaceAll s (p :: q) rep := rfl

namespace Reporter

/-- Embedding of the sanitized target base name (reporter.py line 25):
`str(starting_url).replace("https://", "").replace("http://", "").replace("/", "_")`.
Python `str.replace` replaces every occurrence, not only a leading one. -/
def filename (starting_url : List Char) : List Char :=
  replaceAll (replaceAll (replaceAll starting_url "https://".data []) "http://".data [])
    "/".data "_".data

/-- The sanitization as the claim words it (for comparison): strip only a
*leading* `http://` or `https://` scheme, then replace every `/` with `_`. -/
def filenameSpec (starting_url : List Char) : List Char :=
  let stripped :=
    if "https://".data.isPrefixOf starting_url then starting_url.drop 8
    else if "http://".data.isPrefixOf starting_url then starting_url.drop 7
    else starting_url
  replaceAll stripped "/".data "_".data

end Reporter

/-- C9 counterexample: for a URL carrying `https://` inside a query parameter,
the code removes that occurrence too (Python `replace` is global), so the
result differs from stripping only the leading scheme as the claim states. -/
theorem filename_counterexample :
    Reporter.filename "http://a.com/?next=https://b.com/x".data
        = "a.com_?next=b.com_x".data ∧
      Reporter.filenameSpec "http://a.com/?next=https://b.com/x".data
        = "a.com_?next=https:__b.com_x".data ∧
      Reporter.filename "http://a.com/?next=https://b.com/x".data
        ≠ Reporter.filenameSpec "http://a.com/?next=https://b.com/x".data := by
  refine ⟨by decide, by decide, by decide⟩

/-- C9 (amended): the sanitized base name removes *every* occurrence of
`https://` and then `http://` (single left-to-right passes) and replaces every
`/` with `_`; when no scheme text occurs beyond the leading one, this agrees
with stripping only the leading scheme. -/
theorem filename_strips_all_schemes (rest : List Char)
    (h1 : ¬ "https://".data <:+: ("http://".data ++ rest))
    (h2 : ¬ "http://".data <:+: rest) :
    Reporter.filename ("http://".data ++ rest) = replaceAll rest "/".data "_".data := by
  unfold Reporter.filename
  rw [replaceAll_no_occurrence _ _ h1]
  rw [replaceAll_leading_pat _ _ (by decide)]
  rw [replaceAll_no_occurrence _ _ h2]
  rfl

/-- Witness for the amended C9 theorem at a concrete URL. -/
theorem filename_strips_all_schemes_witness :
    Reporter.filename ("http://".data ++ "a.com/x".data)
      = replaceAll "a.com/x".data "/".data "_".data :=
  filename_strips_all_schemes "a.com/x".data (by decide) (by decide)

/-- Boolean substring containment, Python's `pat in s`. -/
def containsSub (pat s : List Char) : Bool := decide (pat <:+: s)

/-- One transcript message `{role, content}`. -/
structure Msg where
  role : List Char
  content : List Char

/-- The fixed parse-stage system instruction of `Reporter.parse_report`
(reporter.py lines 209-213); surrounding f-string indentation whitespace is
not reproduced (every result quantifies over the reasoning-service oracle,
so the instruction text takes part in no proof). -/
def parsePromptText : List Char :=
  ("You are a report parser whose task is to look at a report and its evaluation and return a boolean value indicating whether the report resulted in a successful exploit or not.\n\nOnly return 1 word, either \"yes\" if the report resulted in a successful exploit or \"no\" if it did not.").data

/-- Embedding of `Reporter.parse_report` (reporter.py lines 199-218): send the
parse instruction plus the report to the reasoning service, then test whether
the literal substring "yes" occurs anywhere in the (stringified) reply. The
source applies no lower-casing. `reason` is the oracle for `LLM.reason`. -/
def Reporter.parse_report (reason : List Msg → List Char) (report : List Char) : Bool :=
  let response := reason ([⟨"system".data, parsePromptText⟩] ++ [⟨"user".data, report⟩])
  containsSub "yes".data response

/-- Python `str.lower` (ASCII case folding; the affirmative token is ASCII). -/
def pyLower (s : List Char) : List Char := s.map Char.toLower

/-- The parse verdict as the claim words it (for comparison): the substring
test performed on a lower-cased copy of the reply. -/
def parse_report_claim (reason : List Msg → List Char) (report : List Char) : Bool :=
  let response := reason ([⟨"system".data, parsePromptText⟩] ++ [⟨"user".data, report⟩])
  containsSub "yes".data (pyLower response)

/-- C3 counterexample: when the reasoning service replies "YES", the code
classifies the report as NOT proven (no lower-cased copy is made, and "yes"
is not a case-sensitive substring of "YES"), while the claim's lower-cased
test would classify it as proven. -/
theorem parse_report_counterexample :
    Reporter.parse_report (fun _ => "YES".data) "r".data = false ∧
      parse_report_claim (fun _ => "YES".data) "r".data = true := by
  refine ⟨by decide, by decide⟩

/-- C3 (amended): parse_report returns a positive verdict exactly when the
reasoning-service reply contains the literal substring "yes" — in that exact
letter case, tested on the reply as-is with no lower-cased copy — anywhere in
the reply, not only as a whole word. -/
theorem parse_report_iff (reason : List Msg → List Char) (report : List Char) :
    Reporter.parse_report reason report = true ↔
      ∃ pre post,
        pre ++ "yes".data ++ post
          = reason ([⟨"system".data, parsePromptText⟩] ++ [⟨"user".data, report⟩]) := by
  unfold Reporter.parse_report containsSub
  rw [decide_eq_true_iff]
  constructor
  · rintro ⟨pre, post, h⟩
    exact ⟨pre, post, h⟩
  · rintro ⟨pre, post, h⟩
    exact ⟨pre, post, h⟩

/-- Path join `Path(dir) / name`, rendered as text. -/
def pathJoin (dir name : List Char) : List Char := dir ++ "/".data ++ name

/-- The path `Reporter.save_reports` writes to (reporter.py lines 220-224):
`<output_dir>/<filename>.txt`. -/
def Reporter.save_reports_path (output_dir filename : List Char) : List Char :=
  pathJoin output_dir (filename ++ ".txt".data)

/-- The text `Reporter.save_reports` writes: the accumulated reports joined by
the fixed delimiter (the whole file is rewritten each time). -/
def Reporter.save_reports_content (reports : List (List Char)) : List Char :=
  List.intercalate "\n\n-------\n\n".data reports

/-- The path `Reporter.generate_summary_report` reads from (reporter.py line
236): the *literal* "security_results" directory, not the configured output
directory. -/
def Reporter.summary_read_path (filename : List Char) : List Char :=
  pathJoin "security_results".data (filename ++ ".txt".data)

/-- Embedding of the report-content load in `generate_summary_report`
(reporter.py lines 234-240): read the per-target report file; a missing file
(FileNotFoundError) is replaced by the fixed fallback text instead of an
error. `fs` is the filesystem oracle (path to content, `none` = missing). -/
def Reporter.summary_report_content (fs : List Char → Option (List Char))
    (filename : List Char) : List Char :=
  match fs (Reporter.summary_read_path filename) with
  | some c => c
  | none => "No vulns were reported.".data

/-- C8 counterexample: with configured output directory "other", the summary
stage reads "security_results/t.txt" while save_reports wrote "other/t.txt" —
not the same file; and the missing-file fallback content is the literal
"No vulns were reported.", not "no vulnerabilities found". -/
theorem summary_read_path_counterexample :
    Reporter.summary_read_path "t".data
        ≠ Reporter.save_reports_path "other".data "t".data ∧
      Reporter.summary_report_content (fun _ => none) "t".data
        ≠ "no vulnerabilities found".data := by
  refine ⟨by decide, by decide⟩

/-- C8 (amended): generate_summary_report reads the hardcoded path
`security_results/<sanitizedTarget>.txt`, which coincides with the file
save_reports writes exactly when the configured output directory is
"security_results" (the default); a missing file is not an error and yields
the fallback content "No vulns were reported.". -/
theorem summary_report_reads_hardcoded_dir (output_dir filename : List Char)
    (fs : List Char → Option (List Char)) :
    (Reporter.summary_read_path filename
        = Reporter.save_reports_path output_dir filename
      ↔ output_dir = "security_results".data) ∧
      (fs (Reporter.summary_read_path filename) = none →
        Reporter.summary_report_content fs filename
          = "No vulns were reported.".data) := by
  constructor
  · unfold Reporter.summary_read_path Reporter.save_reports_path pathJoin
    constructor
    · intro h
      have h1 : "security_results".data ++ "/".data = output_dir ++ "/".data :=
        List.append_cancel_right h
      exact (List.append_cancel_right h1).symm
    · intro h
      rw [h]
  · intro h
    unfold Reporter.summary_report_content
    rw [h]

/-- Witness for the amended C8 theorem at concrete inputs. -/
theorem summary_report_reads_hardcoded_dir_witness :
    Reporter.summary_report_content (fun _ => none) "t".data
      = "No vulns were reported.".data :=
  (summary_report_reads_hardcoded_dir "security_results".data "t".data (fun _ => none)).2 rfl

/-- A captured network request record from the proxy: the source reads
`r.get('url')` and `r.get('resource_type')`, either of which may be absent. -/
structure NetRequest where
  url : Option (List Char)
  resource_type : Option (List Char)

/-- Characters allowed in a URL scheme after the first letter (`urlparse`). -/
def isSchemeChar (c : Char) : Bool := c.isAlphanum || c = '+' || c = '-' || c = '.'

/-- `urlparse(u).netloc` for the URL fragment this system handles: an optional
`scheme:` part, then, if the remainder starts with `//`, the netloc runs up to
the next `/`, `?` or `#`; with no `//` the netloc is empty. -/
def netloc (u : List Char) : List Char :=
  let pre := u.takeWhile (fun c => c != ':')
  let hasScheme :=
    decide (pre.length < u.length) &&
      (match pre with
       | [] => false
       | c :: _ => c.isAlpha) &&
      pre.all isSchemeChar
  let rest := if hasScheme then u.drop (pre.length + 1) else u
  if "//".data.isPrefixOf rest then
    (rest.drop 2).takeWhile (fun c => !(c == '/' || c == '?' || c == '#'))
  else
    []

/-- `urldefrag(u)[0]`: the URL with any fragment identifier removed (the
`canon` helper of generate_safe_crawl_summary, reporter.py lines 52-57). -/
def urldefrag (u : List Char) : List Char := u.takeWhile (fun c => c != '#')

/-- The `same_origin` helper of generate_safe_crawl_summary (reporter.py lines
46-50): the URL host equals the starting URL's host. -/
def same_origin (starting_url u : List Char) : Bool :=
  netloc u == netloc starting_url

/-- The request URLs kept by the comprehension filter `if r.get('url')`
(reporter.py line 59): present and non-empty (Python truthiness). -/
def truthyUrls (reqs : List NetRequest) : List (List Char) :=
  reqs.filterMap (fun r =>
    match r.url with
    | some u => if u.isEmpty then none else some u
    | none => none)

/-- The visited-URL set of the crawl summary (reporter.py lines 59-62): ALL
request URLs (any resource type), same-origin-filtered unless third-party
inclusion is on, fragment-stripped and deduplicated. The source renders
`sorted(set(...))`; the sorting is presentation only, so the set is modelled. -/
def visited_urls (starting_url : List Char) (reqs : List NetRequest)
    (include_third_party : Bool) : Finset (List Char) :=
  let urls_all := truthyUrls reqs
  let urls_kept :=
    if include_third_party then urls_all
    else urls_all.filter (fun u => same_origin starting_url u)
  (urls_kept.map urldefrag).toFinset

/-- The XHR/fetch endpoint set of the crawl summary (reporter.py lines 64-68):
requests whose resource type is `xhr` or `fetch`, same filter and
canonicalization as the visited set. -/
def js_endpoints (starting_url : List Char) (reqs : List NetRequest)
    (include_third_party : Bool) : Finset (List Char) :=
  let xhr_fetch := reqs.filter (fun r =>
    match r.resource_type with
    | some t => t == "xhr".data || t == "fetch".data
    | none => false)
  let ep_urls := truthyUrls xhr_fetch
  let ep_kept :=
    if include_third_party then ep_urls
    else ep_urls.filter (fun u => same_origin starting_url u)
  (ep_kept.map urldefrag).toFinset

/-- C5 counterexample: with one same-origin document request, one same-origin
XHR request and one cross-origin script request (third-party inclusion off),
the visited-URL set also contains the XHR URL — all request URLs are
collected regardless of resource type — so it is NOT exactly the document
URL; the endpoint set is exactly the XHR URL. -/
theorem crawl_summary_counterexample :
    visited_urls "http://example.com".data
        [⟨some "http://example.com/".data, some "document".data⟩,
         ⟨some "http://example.com/api".data, some "xhr".data⟩,
         ⟨some "http://cdn.other.com/lib.js".data, some "script".data⟩] false
      ≠ {"http://example.com/".data} ∧
      visited_urls "http://example.com".data
        [⟨some "http://example.com/".data, some "document".data⟩,
         ⟨some "http://example.com/api".data, some "xhr".data⟩,
         ⟨some "http://cdn.other.com/lib.js".data, some "script".data⟩] false
      = {"http://example.com/".data, "http://example.com/api".data} ∧
      js_endpoints "http://example.com".data
        [⟨some "http://example.com/".data, some "document".data⟩,
         ⟨some "http://example.com/api".data, some "xhr".data⟩,
         ⟨some "http://cdn.other.com/lib.js".data, some "script".data⟩] false
      = {"http://example.com/api".data} := by
  refine ⟨by decide, by decide, by decide⟩

/-- C5 (amended): for network records with exactly one same-origin document
request, one same-origin XHR request and one cross-origin script request and
third-party inclusion disabled, the visited-URL set contains exactly the
document URL AND the XHR URL (the collection runs over all request URLs
regardless of resource type), while the endpoint set contains exactly the XHR
URL, each fragment-stripped. -/
theorem crawl_summary_sets (start docU xhrU scrU : List Char)
    (hdoc : docU ≠ []) (hxhr : xhrU ≠ []) (hscr : scrU ≠ [])
    (h1 : netloc docU = netloc start) (h2 : netloc xhrU = netloc start)
    (h3 : netloc scrU ≠ netloc start) :
    visited_urls start
        [⟨some docU, some "document".data⟩, ⟨some xhrU, some "xhr".data⟩,
         ⟨some scrU, some "script".data⟩] false
      = {urldefrag docU, urldefrag xhrU} ∧
      js_endpoints start
        [⟨some docU, some "document".data⟩, ⟨some xhrU, some "xhr".data⟩,
         ⟨some scrU, some "script".data⟩] false
      = {urldefrag xhrU} := by
  have hd : docU.isEmpty = false := by
    cases docU with
    | nil => exact absurd rfl hdoc
    | cons a l => rfl
  have hx : xhrU.isEmpty = false := by
    cases xhrU with
    | nil => exact absurd rfl hxhr
    | cons a l => rfl
  have hs : scrU.isEmpty = false := by
    cases scrU with
    | nil => exact absurd rfl hscr
    | cons a l => rfl
  have s1 : same_origin start docU = true := by
    unfold same_origin
    exact beq_iff_eq.mpr h1
  have s2 : same_origin start xhrU = true := by
    unfold same_origin
    exact beq_iff_eq.mpr h2
  have s3 : same_origin start scrU = false := by
    unfold same_origin
    exact beq_eq_false_iff_ne.mpr h3
  constructor
  · simp only [visited_urls, truthyUrls, List.filterMap_cons, List.filterMap_nil,
      hd, hx, hs, Bool.false_eq_true, if_false, if_true]
    simp only [List.filter_cons, List.filter_nil, s1, s2, s3, if_true,
      Bool.false_eq_true, if_false]
    simp
  · simp only [js_endpoints, truthyUrls, List.filter_cons, List.filter_nil]
    have e1 : ("document".data == "xhr".data || "document".data == "fetch".data) = false := by
      decide
    have e2 : ("xhr".data == "xhr".data || "xhr".data == "fetch".data) = true := by
      decide
    have e3 : ("script".data == "xhr".data || "script".data == "fetch".data) = false := by
      decide
    simp only [e1, e2, e3, Bool.false_eq_true, if_false, if_true]
    simp only [List.filterMap_cons, List.filterMap_nil, hx, Bool.false_eq_true, if_false]
    simp only [List.filter_cons, List.filter_nil, s2, if_true]
    simp

/-- Witness for the amended C5 theorem at concrete records. -/
theorem crawl_summary_sets_witness :
    visited_urls "http://example.com".data
        [⟨some "http://example.com/".data, some "document".data⟩,
         ⟨some "http://example.com/api".data, some "xhr".data⟩,
         ⟨some "http://cdn.other.com/lib.js".data, some "script".data⟩] false
      = {urldefrag "http://example.com/".data, urldefrag "http://example.com/api".data} ∧
      js_endpoints "http://example.com".data
        [⟨some "http://example.com/".data, some "document".data⟩,
         ⟨some "http://example.com/api".data, some "xhr".data⟩,
         ⟨some "http://cdn.other.com/lib.js".data, some "script".data⟩] false
      = {urldefrag "http://example.com/api".data} :=
  crawl_summary_sets "http://example.com".data "http://example.com/".data
    "http://example.com/api".data "http://cdn.other.com/lib.js".data
    (by decide) (by decide) (by decide) (by decide) (by decide) (by decide)

/-- One call against the live browsing context (the Playwright page). -/
inductive PageCall where
  | waitForSelector (sel : List Char)
  | clickSel (sel : List Char)
  | fillSel (sel : List Char) (value : List Char)
  | locatorClick (sel : List Char)
  | keyboardPress (key : List Char)
  | innerHtml (root : List Char)
  | gotoUrl (url : List Char)
  | reload
  | evaluate (code : List Char)
  | cookies
  | pageUrl
deriving DecidableEq

/-- A raised Python exception, carried as its message text. -/
abbrev Err := List Char

/-- The caller-supplied browsing context, modelled as a deterministic oracle:
each call either returns a string result or raises. -/
abbrev Page := PageCall → Except Err (List Char)

/-- The dispatcher state fixed at construction (tools.py lines 12-21). -/
structure Tools where
  default_timeout_ms : Int
  safe : Bool

/-- Embedding of `Tools._with_retries` (tools.py lines 51-58) applied to one
page call: return on first success; otherwise the call is attempted
`retries + 1` times and the last error propagates. With a deterministic
oracle a success makes exactly one call. -/
def withRetries (page : Page) (c : PageCall) (retries : Nat) :
    Except Err (List Char) × List PageCall :=
  match page c with
  | .ok v => (.ok v, [c])
  | .error e => (.error e, List.replicate (retries + 1) c)

/-- Embedding of `Tools.click` (tools.py lines 60-69): safe-mode gate, retried
wait-for-selector, retried click, then the page markup; any raise inside the
try is converted to a "CLICK_ERROR: " observation. -/
def Tools.click (t : Tools) (page : Page) (sel : List Char) :
    Except Err (List Char) × List PageCall :=
  if t.safe then (.ok "SAFE_MODE: click disabled".data, [])
  else
    match withRetries page (.waitForSelector sel) 2 with
    | (.error e, tr) => (.ok ("CLICK_ERROR: ".data ++ e), tr)
    | (.ok _, tr1) =>
      match withRetries page (.clickSel sel) 2 with
      | (.error e, tr2) => (.ok ("CLICK_ERROR: ".data ++ e), tr1 ++ tr2)
      | (.ok _, tr2) =>
        match page (.innerHtml "html".data) with
        | .error e =>
          (.ok ("CLICK_ERROR: ".data ++ e), tr1 ++ tr2 ++ [.innerHtml "html".data])
        | .ok h => (.ok h, tr1 ++ tr2 ++ [.innerHtml "html".data])

/-- Embedding of `Tools.fill` (tools.py lines 71-80). -/
def Tools.fill (t : Tools) (page : Page) (sel value : List Char) :
    Except Err (List Char) × List PageCall :=
  if t.safe then (.ok "SAFE_MODE: fill disabled".data, [])
  else
    match withRetries page (.waitForSelector sel) 2 with
    | (.error e, tr) => (.ok ("FILL_ERROR: ".data ++ e), tr)
    | (.ok _, tr1) =>
      match withRetries page (.fillSel sel value) 2 with
      | (.error e, tr2) => (.ok ("FILL_ERROR: ".data ++ e), tr1 ++ tr2)
      | (.ok _, tr2) =>
        match page (.innerHtml "html".data) with
        | .error e =>
          (.ok ("FILL_ERROR: ".data ++ e), tr1 ++ tr2 ++ [.innerHtml "html".data])
        | .ok h => (.ok h, tr1 ++ tr2 ++ [.innerHtml "html".data])

/-- Embedding of `Tools.submit` (tools.py lines 82-91): clicks through a
locator. -/
def Tools.submit (t : Tools) (page : Page) (sel : List Char) :
    Except Err (List Char) × List PageCall :=
  if t.safe then (.ok "SAFE_MODE: submit disabled".data, [])
  else
    match withRetries page (.waitForSelector sel) 2 with
    | (.error e, tr) => (.ok ("SUBMIT_ERROR: ".data ++ e), tr)
    | (.ok _, tr1) =>
      match withRetries page (.locatorClick sel) 2 with
      | (.error e, tr2) => (.ok ("SUBMIT_ERROR: ".data ++ e), tr1 ++ tr2)
      | (.ok _, tr2) =>
        match page (.innerHtml "html".data) with
        | .error e =>
          (.ok ("SUBMIT_ERROR: ".data ++ e), tr1 ++ tr2 ++ [.innerHtml "html".data])
        | .ok h => (.ok h, tr1 ++ tr2 ++ [.innerHtml "html".data])

/-- Embedding of `Tools.presskey` (tools.py lines 93-104): NO safe-mode gate
and NO try/except — a raise from the context propagates to the caller. -/
def Tools.presskey (_t : Tools) (page : Page) (key : List Char) :
    Except Err (List Char) × List PageCall :=
  match page (.keyboardPress key) with
  | .error e => (.error e, [.keyboardPress key])
  | .ok _ =>
    match page (.innerHtml "html".data) with
    | .error e => (.error e, [.keyboardPress key, .innerHtml "html".data])
    | .ok h => (.ok h, [.keyboardPress key, .innerHtml "html".data])

/-- Embedding of `Tools.goto` (tools.py lines 106-112). -/
def Tools.goto (_t : Tools) (page : Page) (url : List Char) :
    Except Err (List Char) × List PageCall :=
  match withRetries page (.gotoUrl url) 2 with
  | (.error e, tr) => (.ok ("GOTO_ERROR: ".data ++ e), tr)
  | (.ok _, tr1) =>
    match page (.innerHtml "html".data) with
    | .error e => (.ok ("GOTO_ERROR: ".data ++ e), tr1 ++ [.innerHtml "html".data])
    | .ok h => (.ok h, tr1 ++ [.innerHtml "html".data])

/-- Embedding of `Tools.refresh` (tools.py lines 114-120). -/
def Tools.refresh (_t : Tools) (page : Page) :
    Except Err (List Char) × List PageCall :=
  match withRetries page .reload 2 with
  | (.error e, tr) => (.ok ("REFRESH_ERROR: ".data ++ e), tr)
  | (.ok _, tr1) =>
    match page (.innerHtml "html".data) with
    | .error e => (.ok ("REFRESH_ERROR: ".data ++ e), tr1 ++ [.innerHtml "html".data])
    | .ok h => (.ok h, tr1 ++ [.innerHtml "html".data])

/-- Embedding of `Tools.execute_js` (tools.py lines 42-49): wrap, evaluate,
convert a raise to "JS_ERROR: ". -/
def Tools.execute_js (_t : Tools) (page : Page) (js : List Char) :
    Except Err (List Char) × List PageCall :=
  let code := wrapJs js
  match page (.evaluate code) with
  | .ok v => (.ok v, [.evaluate code])
  | .error e => (.ok ("JS_ERROR: ".data ++ e), [.evaluate code])

/-- The fixed form-discovery script literal of `Tools.discover_forms`
(tools.py lines 184-203); its JavaScript text takes part in no result here,
so it is abbreviated to a marker. -/
def formsJs : List Char := "<discover_forms script>".data

/-- Embedding of `Tools.discover_forms` (tools.py lines 182-207). -/
def Tools.discover_forms (_t : Tools) (page : Page) :
    Except Err (List Char) × List PageCall :=
  match page (.evaluate formsJs) with
  | .ok v => (.ok v, [.evaluate formsJs])
  | .error e => (.ok ("DISCOVER_FORMS_ERROR: ".data ++ e), [.evaluate formsJs])

/-- A benign page oracle: every call succeeds with a fixed payload. -/
def okPage : Page := fun _ => .ok "<html>".data

/-- A failing page oracle: every call raises. -/
def raisingPage : Page := fun _ => .error "boom".data

/-- Where `sys.stdout` points. -/
inductive StdoutTgt where
  | real
  | buf
  | other (tag : Nat)
deriving DecidableEq

/-- The observable behavior of one `exec(code, ...)` run: what it printed to
the capture buffer, whether it reassigned `sys.stdout`, and whether it raised. -/
structure CodeBehavior where
  printed : List Char
  newStdout : Option StdoutTgt
  raises : Option Err

/-- The exec-namespace pre-population performed by python_interpreter *before*
the try/finally (tools.py lines 134-142): `page.context.cookies()`,
`page.url`, `page.evaluate('navigator.userAgent')`; a raise here propagates. -/
def prepCalls : Option Page → Except (Err × List PageCall) (List PageCall)
  | none => .ok []
  | some p =>
    match p .cookies with
    | .error e => .error (e, [.cookies])
    | .ok _ =>
      match p .pageUrl with
      | .error e => .error (e, [.cookies, .pageUrl])
      | .ok _ =>
        match p (.evaluate "navigator.userAgent".data) with
        | .error e => .error (e, [.cookies, .pageUrl, .evaluate "navigator.userAgent".data])
        | .ok _ => .ok [.cookies, .pageUrl, .evaluate "navigator.userAgent".data]

/-- Result of one python_interpreter call: the returned observation (or the
raised error), the value of `sys.stdout` when control leaves the function,
and the page calls made. -/
structure PIResult where
  result : Except Err (List Char)
  stdoutAfter : StdoutTgt
  calls : List PageCall

/-- The denylisted substrings of python_interpreter (tools.py line 126). -/
def forbiddenSubs : List (List Char) :=
  ["sync_playwright(".data, "async_playwright(".data, "from playwright".data,
   "import playwright".data]

/-- Embedding of `Tools.python_interpreter` (tools.py lines 122-155):
safe-mode short-circuit; denylist check; redirect `sys.stdout` to a fresh
buffer (line 132); populate the exec namespace (page calls, lines 134-142,
*outside* the try); run the code under try/finally; cap the captured output
at 4000 characters with a truncation marker; convert an exec raise to
"PYTHON_ERROR: "; the `finally` (line 154) restores `sys.stdout` to the value
read at line 131, before the redirect. A raise during namespace population
happens before the try, so it propagates with `sys.stdout` still pointing at
the buffer. -/
def Tools.python_interpreter (t : Tools) (code : List Char) (page : Option Page)
    (beh : CodeBehavior) (stdout0 : StdoutTgt) : PIResult :=
  if t.safe then ⟨.ok "SAFE_MODE: python_interpreter disabled".data, stdout0, []⟩
  else if forbiddenSubs.any (fun f => containsSub f code) then
    ⟨.ok ("PYTHON_ERROR: Playwright launch is not allowed from " ++
      "python_interpreter. Use existing page context.").data, stdout0, []⟩
  else
    let old_stdout := stdout0
    let during : StdoutTgt := .buf
    match prepCalls page with
    | .error (e, tr) => ⟨.error e, during, tr⟩
    | .ok tr =>
      let afterExec : StdoutTgt := beh.newStdout.getD during
      let finallyRestore : StdoutTgt → StdoutTgt := fun _ => old_stdout
      match beh.raises with
      | some e => ⟨.ok ("PYTHON_ERROR: ".data ++ e), finallyRestore afterExec, tr⟩
      | none =>
        let output :=
          if 4000 < beh.printed.length then
            beh.printed.take 4000 ++ "... [truncated]".data
          else beh.printed
        ⟨.ok output, finallyRestore afterExec, tr⟩

/-- C4: with safe mode enabled, `click`, `fill`, `submit` and
`python_interpreter` each return an observation beginning with "SAFE_MODE:"
and perform zero calls against the browsing context, for every selector,
value and code argument, every context behavior and every executed-code
behavior. -/
theorem safe_mode_blocks (t : Tools) (page : Page) (sel value code : List Char)
    (pg : Option Page) (beh : CodeBehavior) (st : StdoutTgt)
    (hsafe : t.safe = true) :
    (∃ s, t.click page sel = (.ok s, []) ∧ "SAFE_MODE:".data.isPrefixOf s = true) ∧
    (∃ s, t.fill page sel value = (.ok s, []) ∧ "SAFE_MODE:".data.isPrefixOf s = true) ∧
    (∃ s, t.submit page sel = (.ok s, []) ∧ "SAFE_MODE:".data.isPrefixOf s = true) ∧
    (∃ s, t.python_interpreter code pg beh st = ⟨.ok s, st, []⟩ ∧
      "SAFE_MODE:".data.isPrefixOf s = true) := by
  refine ⟨⟨"SAFE_MODE: click disabled".data, ?_, by decide⟩,
    ⟨"SAFE_MODE: fill disabled".data, ?_, by decide⟩,
    ⟨"SAFE_MODE: submit disabled".data, ?_, by decide⟩,
    ⟨"SAFE_MODE: python_interpreter disabled".data, ?_, by decide⟩⟩
  · simp [Tools.click, hsafe]
  · simp [Tools.fill, hsafe]
  · simp [Tools.submit, hsafe]
  · simp [Tools.python_interpreter, hsafe]

/-- Witness for C4 at a concrete safe-mode dispatcher and concrete arguments. -/
theorem safe_mode_blocks_witness :
    ∃ s, Tools.click ⟨7000, true⟩ okPage "#id".data = (.ok s, []) ∧
      "SAFE_MODE:".data.isPrefixOf s = true :=
  (safe_mode_blocks ⟨7000, true⟩ okPage "#id".data "x".data "print(1)".data
    none ⟨[], none, none⟩ .real rfl).1

/-- C2 counterexample: `presskey` has no try/except, so when the context's
keyboard press raises, the exception propagates to the caller instead of
being converted into a tagged observation string. -/
theorem presskey_raises_counterexample :
    (Tools.presskey ⟨7000, false⟩ raisingPage "a".data).1 = .error "boom".data := rfl

/-- C2 (amended): `click`, `fill`, `submit`, `goto`, `refresh`, `execute_js`
and `discover_forms` always return an observation string and never raise to
the caller, for every behavior of the browsing context; `presskey` performs
no exception conversion — a raising keyboard press propagates unchanged. -/
theorem operations_never_raise (t : Tools) (page : Page)
    (sel value url key js : List Char) :
    (∃ s, (t.click page sel).1 = .ok s) ∧
    (∃ s, (t.fill page sel value).1 = .ok s) ∧
    (∃ s, (t.submit page sel).1 = .ok s) ∧
    (∃ s, (t.goto page url).1 = .ok s) ∧
    (∃ s, (t.refresh page).1 = .ok s) ∧
    (∃ s, (t.execute_js page js).1 = .ok s) ∧
    (∃ s, (t.discover_forms page).1 = .ok s) ∧
    (∀ e, page (.keyboardPress key) = .error e →
      (t.presskey page key).1 = .error e) := by
  refine ⟨?_, ?_, ?_, ?_, ?_, ?_, ?_, ?_⟩
  · by_cases hs : t.safe = true
    · exact ⟨"SAFE_MODE: click disabled".data, by simp [Tools.click, hs]⟩
    · rw [Bool.not_eq_true] at hs
      unfold Tools.click withRetries
      rw [hs]
      cases h1 : page (.waitForSelector sel) <;>
        cases h2 : page (.clickSel sel) <;>
          cases h3 : page (.innerHtml "html".data) <;> simp
  · by_cases hs : t.safe = true
    · exact ⟨"SAFE_MODE: fill disabled".data, by simp [Tools.fill, hs]⟩
    · rw [Bool.not_eq_true] at hs
      unfold Tools.fill withRetries
      rw [hs]
      cases h1 : page (.waitForSelector sel) <;>
        cases h2 : page (.fillSel sel value) <;>
          cases h3 : page (.innerHtml "html".data) <;> simp
  · by_cases hs : t.safe = true
    · exact ⟨"SAFE_MODE: submit disabled".data, by simp [Tools.submit, hs]⟩
    · rw [Bool.not_eq_true] at hs
      unfold Tools.submit withRetries
      rw [hs]
      cases h1 : page (.waitForSelector sel) <;>
        cases h2 : page (.locatorClick sel) <;>
          cases h3 : page (.innerHtml "html".data) <;> simp
  · unfold Tools.goto withRetries
    cases h1 : page (.gotoUrl url) <;>
      cases h2 : page (.innerHtml "html".data) <;> simp
  · unfold Tools.refresh withRetries
    cases h1 : page .reload <;>
      cases h2 : page (.innerHtml "html".data) <;> simp
  · unfold Tools.execute_js
    cases h1 : page (.evaluate (wrapJs js)) <;> simp [h1]
  · unfold Tools.discover_forms
    cases h1 : page (.evaluate formsJs) <;> simp [h1]
  · intro e he
    unfold Tools.presskey
    rw [he]

/-- Witness for the amended C2 theorem: the inner presskey implication
discharged at the always-raising context, the click conjunct at it too. -/
theorem operations_never_raise_witness :
    (∃ s, (Tools.click ⟨7000, false⟩ raisingPage "#a".data).1 = .ok s) ∧
      (Tools.presskey ⟨7000, false⟩ raisingPage "k".data).1 = .error "boom".data := by
  have h := operations_never_raise ⟨7000, false⟩ raisingPage "#a".data "v".data
    "http://x".data "k".data "1".data
  exact ⟨h.1, h.2.2.2.2.2.2.2 "boom".data rfl⟩

/-- C10 counterexample: when the exec-namespace pre-population raises (here a
context whose `cookies()` call raises), the exception propagates from outside
the try/finally and `sys.stdout` is left pointing at the capture buffer —
the redirection leaks past the call instead of being restored. -/
theorem python_interpreter_stdout_leak :
    (Tools.python_interpreter ⟨7000, false⟩ "print(1)".data (some raisingPage)
        ⟨[], none, none⟩ .real).stdoutAfter = .buf ∧
      (Tools.python_interpreter ⟨7000, false⟩ "print(1)".data (some raisingPage)
        ⟨[], none, none⟩ .real).stdoutAfter ≠ .real := by
  refine ⟨rfl, by decide⟩

/-- C10 (amended): for every code input and every behavior of the executed
code — normal completion, raising, or reassigning `sys.stdout` — provided the
pre-population of the exec namespace from the browsing context does not
itself raise (in particular whenever no context is supplied),
`python_interpreter` restores `sys.stdout` to its pre-call value before
returning: the `finally` writes back the value captured before the redirect. -/
theorem python_interpreter_restores_stdout (t : Tools) (code : List Char)
    (page : Option Page) (beh : CodeBehavior) (stdout0 : StdoutTgt)
    (h : ∀ e tr, prepCalls page ≠ .error (e, tr)) :
    (t.python_interpreter code page beh stdout0).stdoutAfter = stdout0 := by
  unfold Tools.python_interpreter
  by_cases hs : t.safe = true
  · rw [hs]
    rfl
  · rw [Bool.not_eq_true] at hs
    rw [hs]
    by_cases hf : (forbiddenSubs.any (fun f => containsSub f code)) = true
    · rw [hf]
      rfl
    · rw [Bool.not_eq_true] at hf
      rw [hf]
      simp only [Bool.false_eq_true, if_false]
      cases hp : prepCalls page with
      | error et => exact absurd hp (by cases et with | mk e tr => exact h e tr)
      | ok tr =>
        cases beh.raises with
        | some e => rfl
        | none =>
          by_cases hl : 4000 < beh.printed.length
          · simp [hl]
          · simp [hl]

/-- Witness for the amended C10 theorem: no context, and executed code that
both prints and reassigns `sys.stdout`; the pre-call stdout is restored. -/
theorem python_interpreter_restores_stdout_witness :
    (Tools.python_interpreter ⟨7000, false⟩ "x = 1".data none
        ⟨"hi".data, some (.other 3), none⟩ .real).stdoutAfter = .real :=
  python_interpreter_restores_stdout ⟨7000, false⟩ "x = 1".data none
    ⟨"hi".data, some (.other 3), none⟩ .real
    (fun e tr hc => by simp [prepCalls] at hc)

